import Mathlib

/-!
Verification of the MAGPRIME UBSS pipeline (src/magprime/algorithms/interference/UBSS.py)
against its natural-language specification.

Shallow embedding conventions:
* complex scalars are pairs of rationals (re, im); numpy complex arrays become
  lists of such pairs;
* the module-level globals (`magnetometers`, `clusterCentroids`) become explicit
  state passed into and out of each function;
* external collaborators that are not code of this repository (the NSGT
  transform library, the HDBSCAN clustering routine, the cvxpy solver) enter as
  function parameters, constrained only where a claim needs their documented
  contract;
* the transcendental float computations of the source (square roots, arccos,
  cos of the tolerance angle) are modelled exactly over the reals, so the
  corresponding definitions are noncomputable; the rational core (dot products,
  squared norms, blending arithmetic) stays computable.
-/

namespace UBSS

/-- A complex scalar, represented as (real part, imaginary part) over ℚ. -/
abbrev Cx : Type := ℚ × ℚ

/-- A complex vector (one row/column of a numpy complex array). -/
abbrev Vec : Type := List Cx

/-- Complex addition. -/
def cadd (a b : Cx) : Cx := (a.1 + b.1, a.2 + b.2)

/-- Complex subtraction. -/
def csub (a b : Cx) : Cx := (a.1 - b.1, a.2 - b.2)

/-- Scaling a complex scalar by a real (rational) factor. -/
def csmul (r : ℚ) (z : Cx) : Cx := (r * z.1, r * z.2)

/-- Squared magnitude of a complex scalar: `np.abs(z)**2`. -/
def magSq (z : Cx) : ℚ := z.1 * z.1 + z.2 * z.2

/-- `np.real` applied to a complex vector. -/
def reParts (v : Vec) : List ℚ := v.map Prod.fst

/-- `np.imag` applied to a complex vector. -/
def imParts (v : Vec) : List ℚ := v.map Prod.snd

/-- `np.dot` of two real vectors. -/
def dotQ (a b : List ℚ) : ℚ := (List.zipWith (fun x y => x * y) a b).sum

/-- Squared Euclidean norm of a real vector. -/
def normSqQ (a : List ℚ) : ℚ := dotQ a a

/-- Squared Frobenius norm of a complex vector: `np.linalg.norm(v)**2`. -/
def normSqC (v : Vec) : ℚ := (v.map magSq).sum

/-- `np.linalg.norm` of a real vector (a real square root, hence noncomputable). -/
noncomputable def npNorm (a : List ℚ) : ℝ := Real.sqrt ((normSqQ a : ℚ) : ℝ)

/-- `np.linalg.norm` of a complex vector. -/
noncomputable def npNormC (v : Vec) : ℝ := Real.sqrt ((normSqC v : ℚ) : ℝ)

/-- `np.deg2rad`. -/
noncomputable def deg2rad (d : ℚ) : ℝ := (d : ℝ) * Real.pi / 180

/-- `np.clip(x, lo, hi)`. -/
noncomputable def npClip (x lo hi : ℝ) : ℝ := max lo (min x hi)

/-- The SSP cosine-similarity threshold `np.cos(np.deg2rad(sspTol))` with the
module default `sspTol = 15`. -/
noncomputable def sspThreshold : ℝ := Real.cos (deg2rad 15)

/-- The angular matching test of `updateCentroids` (UBSS.py lines 322-325):
`a` and `b` are the normalized real parts of the existing centroid and the new
observation, and the match succeeds when
`arccos(clip(dot(a, b), -1, 1)) < deg2rad(sspTol)`.
Since `dot(re(x)/‖x‖, re(y)/‖y‖) = dot(re(x), re(y)) / (‖x‖·‖y‖)`, the
normalized dot product is written as the rational dot product divided by the
product of the complex norms. -/
noncomputable def srcAngleMatch (existing c : Vec) : Prop :=
  Real.arccos (npClip (((dotQ (reParts existing) (reParts c) : ℚ) : ℝ) /
    (npNormC existing * npNormC c)) (-1) 1) < deg2rad 15

noncomputable instance srcAngleMatchDec : ∀ a b, Decidable (srcAngleMatch a b) :=
  fun _ _ => Classical.dec _

/-- The exponential-smoothing blend of `updateCentroids` (line 327):
`existing + learnRate * (new - existing)` with the default `learnRate = 0.1`. -/
def blendToward (v c : Vec) : Vec :=
  List.zipWith (fun x y => cadd x (csmul (1 / 10) (csub y x))) v c

/-- One outer-loop iteration of `updateCentroids` (lines 318-332), processing a
single new centroid `c` against the current centroid dictionary `st`.

The Python `OrderedDict` is keyed `0, 1, ..., len-1` (entries are only ever
added at key `len(clusterCentroids)`), so it is embedded as a list indexed by
position.  The inner `for cluster in clusterCentroids` loop tests every
existing centroid against `c`; a matching centroid with nonzero index is
blended toward `c`; the ambient centroid at index 0 is matched but never
blended; `c` is appended at the next free key iff no existing centroid
matched.  Each key is visited once per new centroid, so the angle test of key
`i` always sees the pre-blend value of key `i`, which the positional map below
reproduces.  The angle test is a parameter `test` so that theorems can
quantify over it; `srcAngleMatch` is the test the source uses. -/
def updateStep (test : Vec → Vec → Prop) [inst : ∀ a b, Decidable (test a b)]
    (st : List Vec) (c : Vec) : List Vec :=
  let blended := (List.range st.length).map fun i =>
    let v := st.getD i []
    if test v c ∧ i ≠ 0 then blendToward v c else v
  let matched := (List.range st.length).any fun i => decide (test (st.getD i []) c)
  if matched then blended else blended ++ [c]

/-- `updateCentroids(newCentroids)` (lines 315-333): fold `updateStep` over the
new centroids (the columns of the freshly clustered mixing matrix), starting
from the current global centroid dictionary.  The `newCentroids.T.size > 0`
guard of line 317 is the empty-list case of the fold. -/
def updateCentroids (test : Vec → Vec → Prop) [inst : ∀ a b, Decidable (test a b)]
    (st : List Vec) (news : List Vec) : List Vec :=
  news.foldl (updateStep test) st

/-- `np.ones(n)` as a complex vector (real ones). -/
def onesVec (n : ℕ) : Vec := List.replicate n ((1 : ℚ), (0 : ℚ))

/-- `setMagnetometers(n)` (lines 181-186): resets the global centroid
dictionary to `{0: np.ones(n)}`.  The returned list is the new centroid
state. -/
def setMagnetometers (n : ℕ) : List Vec := [onesVec n]

lemma updateStep_head?_cons (test : Vec → Vec → Prop) [inst : ∀ a b, Decidable (test a b)]
    (v : Vec) (rest : List Vec) (c : Vec) :
    (updateStep test (v :: rest) c).head? = some v := by
  unfold updateStep
  simp only [List.length_cons, List.range_succ_eq_map, List.map_cons, List.getD_cons_zero,
    ne_eq, not_true_eq_false, and_false, if_false]
  split <;> simp

lemma updateStep_head? (test : Vec → Vec → Prop) [inst : ∀ a b, Decidable (test a b)]
    {st : List Vec} {v : Vec} (h : st.head? = some v) (c : Vec) :
    (updateStep test st c).head? = some v := by
  cases st with
  | nil => simp at h
  | cons a rest =>
    simp only [List.head?_cons, Option.some.injEq] at h
    subst h
    exact updateStep_head?_cons test a rest c

lemma updateCentroids_head? (test : Vec → Vec → Prop) [inst : ∀ a b, Decidable (test a b)]
    {st : List Vec} {v : Vec} (h : st.head? = some v) (news : List Vec) :
    (updateCentroids test st news).head? = some v := by
  induction news generalizing st with
  | nil => exact h
  | cons c rest ih =>
    have hstep : updateCentroids test st (c :: rest)
        = updateCentroids test (updateStep test st c) rest := rfl
    rw [hstep]
    exact ih (updateStep_head? test h c)

lemma foldl_updateCentroids_head? (test : Vec → Vec → Prop) [inst : ∀ a b, Decidable (test a b)]
    {st : List Vec} {v : Vec} (h : st.head? = some v) (batches : List (List Vec)) :
    (batches.foldl (updateCentroids test) st).head? = some v := by
  induction batches generalizing st with
  | nil => exact h
  | cons b rest ih => exact ih (updateCentroids_head? test h b)

/-- C1: after `setMagnetometers n`, the centroid at index 0 equals the all-ones
vector of length `n` before and after every sequence of `updateCentroids`
calls: it may be matched by a new observation (for any matching test,
`srcAngleMatch` included) but is never blended toward it or overwritten by
merging, so column 0 of the mixing matrix always represents the ambient
direction.  Stated over an arbitrary list of update batches, so every state
reachable from the reset — before and after each call — is an instance. -/
theorem ambient_centroid_invariant (test : Vec → Vec → Prop)
    [inst : ∀ a b, Decidable (test a b)] (n : ℕ) (batches : List (List Vec)) :
    (batches.foldl (updateCentroids test) (setMagnetometers n)).head? = some (onesVec n) :=
  foldl_updateCentroids_head? test
    (show (setMagnetometers n).head? = some (onesVec n) from rfl) batches

/-- C9: `updateCentroids` applied to an empty set of new centroids neither
blends nor appends any entry: the centroid dictionary — and hence the mixing
matrix built from it — is left exactly unchanged, for every matching test and
every current state (in particular after a clustering call that found no
non-noise clusters). -/
theorem updateCentroids_empty_identity (test : Vec → Vec → Prop)
    [inst : ∀ a b, Decidable (test a b)] (st : List Vec) :
    updateCentroids test st [] = st := rfl

/-- `B[:, axis, :]` for a tensor stored as sensors × axes × samples. -/
def column (B : List (List (List ℚ))) (axis : ℕ) : List (List ℚ) :=
  B.map fun sensor => sensor.getD axis []

/-- `np.hstack(B[i])`: concatenate one channel's subbands into a flat
coefficient row. -/
def hstackChannel (chan : List (List Cx)) : List Cx := chan.flatten

/-- `np.vstack([np.hstack(B[i]) for i in range(magnetometers)])` (lines 232 and
289): stack the flattened coefficient rows of the first `m` channels. -/
def vstackBins (B : List (List (List Cx))) (m : ℕ) : List (List Cx) :=
  (List.range m).map fun i => hstackChannel (B.getD i [])

/-- `np.array(rows).T` for a rectangular list of rows, read back as a list of
rows: row `j` of the transpose collects entry `j` of every row; the number of
rows of the transpose is the common length of the input rows (the length of
row 0), and an empty array transposes to an empty array, as in numpy. -/
def numpyT (rows : List (List Cx)) : List (List Cx) :=
  (List.range (rows.headD []).length).map fun j =>
    rows.map fun r => r.getD j ((0 : ℚ), (0 : ℚ))

/-- `weightedReconstruction(sig)` (lines 155-179) with the per-bin solver
abstracted: `s = sig.T` lists the bins, the pool maps `processData` (here
`solveA`, already closed over the mixing matrix built from the centroid state)
over the bins in order, and `r = np.array(result).T` transposes back so each
row is one cluster's coefficient sequence. -/
def weightedReconstruction (solveA : List Cx → List Cx) (sig : List (List Cx)) :
    List (List Cx) :=
  numpyT ((numpyT sig).map solveA)

/-- The subband splitting loop of `demixNSGT` (lines 296-304): cut a flat
coefficient row back into subbands of the recorded lengths. -/
def splitBy : List ℕ → List Cx → List (List Cx)
  | [], _ => []
  | sh :: rest, arr => arr.take sh :: splitBy rest (arr.drop sh)

/-- `demixNSGT(sig)` (lines 273-313).  The NSGT library is external, so its
forward and backward transforms enter as parameters `fwd` and `bwd`; the
cvxpy-based per-bin solver enters as `solve`, applied to the current centroid
state (from which the source builds the mixing matrix) and one bin's
measurement vector.  `m` is the `magnetometers` global. -/
def demixNSGT (fwd : List (List ℚ) → List (List (List Cx)))
    (bwd : List (List (List Cx)) → List (List ℚ))
    (solve : List Vec → List Cx → List Cx) (m : ℕ) (st : List Vec)
    (sig : List (List ℚ)) : List (List ℚ) :=
  bwd ((weightedReconstruction (solve st) (vstackBins (fwd sig) m)).map
    (splitBy (((fwd sig).headD []).map List.length)))

/-- The centroid-state effect of one axis iteration of the triaxial `clean`
loop (lines 78-79): `setMagnetometers(B.shape[0])` resets the state, then
`clusterNSGT` updates it with the centroids found by clustering that axis
(`found`, a parameter because the HDBSCAN clustering engine is external). -/
def cleanAxisState (test : Vec → Vec → Prop) [inst : ∀ a b, Decidable (test a b)]
    (nsensors : ℕ) (found : List Vec) : List Vec :=
  updateCentroids test (setMagnetometers nsensors) found

/-- `clean(B, triaxial=True)` (lines 75-80) under the module default
`detrend = False`: for each axis, reset the centroid state via
`setMagnetometers(B.shape[0])`, update it with that axis's clustering result,
demix the axis slice and keep row 0 of the demixed array.  Returns the rows of
`result` together with the final centroid state (the value of the
`clusterCentroids` global after the call); `st0` is that global at entry. -/
def cleanTriaxial (fwd : List (List ℚ) → List (List (List Cx)))
    (bwd : List (List (List Cx)) → List (List ℚ))
    (solve : List Vec → List Cx → List Cx)
    (test : Vec → Vec → Prop) [inst : ∀ a b, Decidable (test a b)]
    (found : ℕ → List Vec) (st0 : List Vec) (B : List (List (List ℚ))) :
    List (List ℚ) × List Vec :=
  (List.range 3).foldl
    (fun acc axis =>
      let st := cleanAxisState test B.length (found axis)
      (acc.1 ++ [(demixNSGT fwd bwd solve B.length st (column B axis)).headD []], st))
    ([], st0)

/-- `clean(B, triaxial=False)` (lines 82-84) under the module default
`detrend = False`: one reset, one clustering update, one demix, row 0. -/
def cleanSingle (fwd : List (List ℚ) → List (List (List Cx)))
    (bwd : List (List (List Cx)) → List (List ℚ))
    (solve : List Vec → List Cx → List Cx)
    (test : Vec → Vec → Prop) [inst : ∀ a b, Decidable (test a b)]
    (found0 : List Vec) (B2 : List (List ℚ)) : List ℚ × List Vec :=
  let st := cleanAxisState test B2.length found0
  ((demixNSGT fwd bwd solve B2.length st B2).headD [], st)

/-- A concrete new centroid for two sensors: gain concentrated on sensor 0.
Its normalized real part is at angle 45° to the ambient all-ones direction,
well outside the 15° matching tolerance. -/
def cvec : Vec := [((1 : ℚ), (0 : ℚ)), ((0 : ℚ), (0 : ℚ))]

lemma sqrt_two_le_two : Real.sqrt 2 ≤ 2 := by
  nlinarith [Real.sq_sqrt (by norm_num : (0 : ℝ) ≤ 2), Real.sqrt_nonneg 2]

lemma not_srcAngleMatch_ones2_cvec : ¬ srcAngleMatch (onesVec 2) cvec := by
  have h1 : dotQ (reParts (onesVec 2)) (reParts cvec) = 1 := by
    simp [dotQ, reParts, onesVec, cvec, List.replicate]
  have h2 : normSqC (onesVec 2) = 2 := by
    simp [normSqC, magSq, onesVec, List.replicate]
    norm_num
  have h3 : normSqC cvec = 1 := by
    simp [normSqC, magSq, cvec]
  have hs2pos : (0 : ℝ) < Real.sqrt 2 := Real.sqrt_pos.mpr (by norm_num)
  have harg : ((dotQ (reParts (onesVec 2)) (reParts cvec) : ℚ) : ℝ) /
      (npNormC (onesVec 2) * npNormC cvec) = Real.sqrt 2 / 2 := by
    rw [h1, npNormC, npNormC, h2, h3]
    push_cast
    rw [Real.sqrt_one, mul_one,
      div_eq_div_iff hs2pos.ne' (by norm_num : (2 : ℝ) ≠ 0), one_mul,
      Real.mul_self_sqrt (by norm_num : (0 : ℝ) ≤ 2)]
  have hle1 : Real.sqrt 2 / 2 ≤ 1 := by linarith [sqrt_two_le_two]
  have hge : (-1 : ℝ) ≤ Real.sqrt 2 / 2 := by linarith [Real.sqrt_nonneg 2]
  have hclip : npClip (Real.sqrt 2 / 2) (-1) 1 = Real.sqrt 2 / 2 := by
    rw [npClip, min_eq_left hle1, max_eq_right hge]
  have hacos : Real.arccos (Real.sqrt 2 / 2) = Real.pi / 4 := by
    rw [← Real.cos_pi_div_four]
    exact Real.arccos_cos (by positivity) (by linarith [Real.pi_pos])
  have hrad : deg2rad 15 = Real.pi / 12 := by
    rw [deg2rad]; push_cast; ring
  intro h
  rw [srcAngleMatch, harg, hclip, hacos, hrad] at h
  nlinarith [Real.pi_pos]

lemma cleanAxisState_src_cvec :
    cleanAxisState srcAngleMatch 2 [cvec] = [onesVec 2, cvec] := by
  show updateStep srcAngleMatch [onesVec 2] cvec = [onesVec 2, cvec]
  unfold updateStep
  have hm : ((List.range [onesVec 2].length).any fun i =>
      decide (srcAngleMatch ([onesVec 2].getD i []) cvec)) = false := by
    simp [List.range_succ, decide_eq_false_iff_not, not_srcAngleMatch_ones2_cvec]
  rw [hm]
  simp [List.range_succ]

/-- C2 counterexample: with two sensors, clustering on axis 0 observing the
single new direction `cvec` (and axes 1 and 2 observing nothing), the centroid
state right after axis 0's processing holds two centroids, but the state after
the whole triaxial `clean` call is back to the lone ambient centroid: the
mixing-matrix state built while processing axis 0 did not persist into the
subsequent axis calls of the same invocation, because `clean` itself resets it
via `setMagnetometers(B.shape[0])` at the start of every axis iteration. -/
theorem clean_state_not_persistent_cex :
    cleanAxisState srcAngleMatch 2 [cvec] = [onesVec 2, cvec] ∧
    (cleanTriaxial (fun _ => []) (fun _ => []) (fun _ _ => []) srcAngleMatch
      (fun a => if a = 0 then [cvec] else []) [] [[], []]).2 = [onesVec 2] := by
  exact ⟨cleanAxisState_src_cvec, rfl⟩

/-- C2 amended: within a single `clean(B, triaxial=True)` invocation the
mixing-matrix/centroid state does NOT persist across the axis calls: `clean`
invokes `setMagnetometers(B.shape[0])` at the start of every axis iteration,
resetting the state to the lone ambient centroid, so the state after the call
equals the state produced by the last axis's processing alone, whatever state
the module held at entry and whatever the earlier axes observed.  Persistence
without an explicit caller-side reset holds only within one axis's
processing. -/
theorem clean_state_reset_per_axis (fwd : List (List ℚ) → List (List (List Cx)))
    (bwd : List (List (List Cx)) → List (List ℚ))
    (solve : List Vec → List Cx → List Cx)
    (test : Vec → Vec → Prop) [inst : ∀ a b, Decidable (test a b)]
    (found : ℕ → List Vec) (st0 : List Vec) (B : List (List (List ℚ))) :
    (cleanTriaxial fwd bwd solve test found st0 B).2 =
      cleanAxisState test B.length (found 2) := rfl

lemma headD_mem {α : Type} {l : List α} (h : l ≠ []) (d : α) : l.headD d ∈ l := by
  cases l with
  | nil => exact absurd rfl h
  | cons a t => simp

lemma numpyT_length (rows : List (List Cx)) :
    (numpyT rows).length = (rows.headD []).length := by
  simp [numpyT]

lemma cleanAxisState_head? (test : Vec → Vec → Prop) [inst : ∀ a b, Decidable (test a b)]
    (nsensors : ℕ) (found : List Vec) :
    (cleanAxisState test nsensors found).head? = some (onesVec nsensors) :=
  updateCentroids_head? test
    (show (setMagnetometers nsensors).head? = some (onesVec nsensors) from rfl) found

lemma cleanAxisState_ne_nil (test : Vec → Vec → Prop) [inst : ∀ a b, Decidable (test a b)]
    (nsensors : ℕ) (found : List Vec) :
    cleanAxisState test nsensors found ≠ [] := by
  intro hnil
  have h := cleanAxisState_head? test nsensors found
  rw [hnil] at h
  simp at h

lemma demixNSGT_shape (fwd : List (List ℚ) → List (List (List Cx)))
    (bwd : List (List (List Cx)) → List (List ℚ))
    (solve : List Vec → List Cx → List Cx) (m : ℕ) (st : List Vec)
    (sig : List (List ℚ)) (nsamples : ℕ)
    (hbwd : ∀ s, (bwd s).length = s.length ∧ ∀ r ∈ bwd s, r.length = nsamples)
    (hsolve : ∀ b, (solve st b).length = st.length)
    (hbins : 1 ≤ ((vstackBins (fwd sig) m).headD []).length) :
    (demixNSGT fwd bwd solve m st sig).length = st.length ∧
      ∀ r ∈ demixNSGT fwd bwd solve m st sig, r.length = nsamples := by
  unfold demixNSGT weightedReconstruction
  refine ⟨?_, fun r hr => (hbwd _).2 r hr⟩
  rw [(hbwd _).1, List.length_map, numpyT_length]
  have hslen : 1 ≤ (numpyT (vstackBins (fwd sig) m)).length := by
    rw [numpyT_length]; exact hbins
  cases hsc : numpyT (vstackBins (fwd sig) m) with
  | nil => rw [hsc] at hslen; simp at hslen
  | cons s0 srest => simp [hsolve s0]

/-- C3: for every input `B` of shape (n_sensors, 3, n_samples),
`clean(B, triaxial=True)` returns an array of shape (3, n_samples), and for
every input of shape (n_sensors, n_samples), `clean(B, triaxial=False)`
returns an array of shape (n_samples,) — given the external NSGT library's
contract that its backward transform returns one time series per channel, each
of the configured signal length (`hbwd`), that the forward transform produces
at least one coefficient for channel 0 (`hbins3`, `hbins1`), and the cvxpy
solver's contract that a solution vector has one entry per cluster
(`hsolve`).  Row 0 of the demixed array exists because the centroid state
always holds at least the ambient centroid. -/
theorem clean_shape_contract (fwd : List (List ℚ) → List (List (List Cx)))
    (bwd : List (List (List Cx)) → List (List ℚ))
    (solve : List Vec → List Cx → List Cx)
    (test : Vec → Vec → Prop) [inst : ∀ a b, Decidable (test a b)]
    (found : ℕ → List Vec) (found0 : List Vec) (st0 : List Vec) (nsamples : ℕ)
    (B : List (List (List ℚ))) (B2 : List (List ℚ))
    (hbwd : ∀ s, (bwd s).length = s.length ∧ ∀ r ∈ bwd s, r.length = nsamples)
    (hsolve : ∀ stv b, (solve stv b).length = stv.length)
    (hbins3 : ∀ ax < 3, 1 ≤ ((vstackBins (fwd (column B ax)) B.length).headD []).length)
    (hbins1 : 1 ≤ ((vstackBins (fwd B2) B2.length).headD []).length)
    (_hB : ∀ sensor ∈ B, sensor.length = 3 ∧ ∀ row ∈ sensor, row.length = nsamples)
    (_hB2 : ∀ row ∈ B2, row.length = nsamples) :
    (cleanTriaxial fwd bwd solve test found st0 B).1.length = 3 ∧
      (∀ row ∈ (cleanTriaxial fwd bwd solve test found st0 B).1,
        row.length = nsamples) ∧
      (cleanSingle fwd bwd solve test found0 B2).1.length = nsamples := by
  have hrow : ∀ ax < 3, ((demixNSGT fwd bwd solve B.length
      (cleanAxisState test B.length (found ax)) (column B ax)).headD []).length
      = nsamples := by
    intro ax hax
    have hshape := demixNSGT_shape fwd bwd solve B.length
      (cleanAxisState test B.length (found ax)) (column B ax) nsamples hbwd
      (hsolve _) (hbins3 ax hax)
    have hpos : 0 < (demixNSGT fwd bwd solve B.length
        (cleanAxisState test B.length (found ax)) (column B ax)).length := by
      rw [hshape.1]
      exact List.length_pos.mpr (cleanAxisState_ne_nil test B.length (found ax))
    exact hshape.2 _ (headD_mem (List.length_pos.mp hpos) [])
  have htri : (cleanTriaxial fwd bwd solve test found st0 B).1 =
      (List.range 3).map (fun ax => (demixNSGT fwd bwd solve B.length
        (cleanAxisState test B.length (found ax)) (column B ax)).headD []) := rfl
  refine ⟨?_, ?_, ?_⟩
  · rw [htri]; simp
  · intro row hrowmem
    rw [htri] at hrowmem
    obtain ⟨ax, haxmem, hrow2⟩ := List.mem_map.mp hrowmem
    rw [← hrow2]
    exact hrow ax (List.mem_range.mp haxmem)
  · have hshape := demixNSGT_shape fwd bwd solve B2.length
      (cleanAxisState test B2.length found0) B2 nsamples hbwd (hsolve _) hbins1
    have hpos : 0 < (demixNSGT fwd bwd solve B2.length
        (cleanAxisState test B2.length found0) B2).length := by
      rw [hshape.1]
      exact List.length_pos.mpr (cleanAxisState_ne_nil test B2.length found0)
    exact hshape.2 _ (headD_mem (List.length_pos.mp hpos) [])

/-- A matching test that never matches, with a computable decision procedure:
used to instantiate theorems over the abstract angle test at concrete inputs. -/
def neverMatch : Vec → Vec → Prop := fun _ _ => False

instance neverMatchDec : ∀ a b, Decidable (neverMatch a b) :=
  fun _ _ => Decidable.isFalse (fun h => h)

/-- A concrete forward transform for witnesses: one subband per channel holding
the whole time series. -/
def wFwd : List (List ℚ) → List (List (List Cx)) :=
  fun s => s.map fun ch => [ch.map fun q => ((q, (0 : ℚ)) : Cx)]

/-- A concrete backward transform for witnesses: one length-2 time series per
channel. -/
def wBwd : List (List (List Cx)) → List (List ℚ) :=
  fun s => s.map fun _ => [(0 : ℚ), (0 : ℚ)]

/-- A concrete per-bin solver for witnesses: one entry per cluster. -/
def wSolve : List Vec → List Cx → List Cx :=
  fun stv _ => stv.map fun _ => (((0 : ℚ), (0 : ℚ)) : Cx)

/-- A concrete 2-sensor, 3-axis, 2-sample measurement tensor. -/
def wB : List (List (List ℚ)) :=
  [[[1, 0], [1, 0], [1, 0]], [[1, 0], [1, 0], [1, 0]]]

/-- A concrete 2-sensor, 2-sample single-axis measurement array. -/
def wB2 : List (List ℚ) := [[1, 0], [1, 0]]

theorem clean_shape_contract_witness :
    (cleanTriaxial wFwd wBwd wSolve neverMatch (fun _ => []) [] wB).1.length = 3 ∧
      (∀ row ∈ (cleanTriaxial wFwd wBwd wSolve neverMatch (fun _ => []) [] wB).1,
        row.length = 2) ∧
      (cleanSingle wFwd wBwd wSolve neverMatch [] wB2).1.length = 2 :=
  clean_shape_contract wFwd wBwd wSolve neverMatch (fun _ => []) [] [] 2 wB wB2
    (by intro s
        refine ⟨by simp [wBwd], ?_⟩
        intro r hr
        simp only [wBwd, List.mem_map] at hr
        obtain ⟨x, _, hx⟩ := hr
        rw [← hx]
        rfl)
    (by intro stv b; simp [wSolve])
    (by decide)
    (by decide)
    (by decide)
    (by decide)

/-- The cosine similarity computed by `processData` (lines 110-111):
`np.dot(b_real, b_imag) / (np.linalg.norm(b_real) * np.linalg.norm(b_imag))` —
note: no clamping of the norms and no absolute value. -/
noncomputable def procCosSim (b : Vec) : ℝ :=
  ((dotQ (reParts b) (imParts b) : ℚ) : ℝ) / (npNorm (reParts b) * npNorm (imParts b))

/-- The denominator of that division, exactly as line 111 computes it. -/
noncomputable def procDenom (b : Vec) : ℝ := npNorm (reParts b) * npNorm (imParts b)

/-- `processData`'s per-bin SSP classification (line 113):
`cos_sim >= np.cos(np.deg2rad(sspTol))`. -/
noncomputable def sspClass (b : Vec) : Prop := procCosSim b ≥ sspThreshold

noncomputable instance sspClassDec : ∀ b, Decidable (sspClass b) :=
  fun _ => Classical.dec _

/-- `filterSSP`'s clamped per-bin norm (lines 212-215): the Euclidean norm
with `norm[norm == 0] = 1`. -/
noncomputable def clampedNorm (a : List ℚ) : ℝ := if npNorm a = 0 then 1 else npNorm a

/-- `filterSSP`'s per-bin cosine similarity (lines 209-216), for one column of
the coefficient matrix: `np.abs(a_dot_b / (norm_a * norm_b))` with both norms
clamped — note the absolute value, absent from `processData`. -/
noncomputable def filterCosSim (b : Vec) : ℝ :=
  |((dotQ (reParts b) (imParts b) : ℚ) : ℝ) /
    (clampedNorm (reParts b) * clampedNorm (imParts b))|

/-- `filterSSP`'s per-bin retention test (line 217):
`cos_sim >= np.cos(np.deg2rad(sspTol))`. -/
noncomputable def filterSSPKeep (b : Vec) : Prop := filterCosSim b ≥ sspThreshold

lemma normSqQ_nonneg (a : List ℚ) : 0 ≤ normSqQ a := by
  induction a with
  | nil => norm_num [normSqQ, dotQ]
  | cons x rest ih =>
    have hc : normSqQ (x :: rest) = x * x + normSqQ rest := by
      simp [normSqQ, dotQ]
    rw [hc]
    nlinarith [mul_self_nonneg x]

lemma npNorm_nonneg (a : List ℚ) : 0 ≤ npNorm a := Real.sqrt_nonneg _

lemma npNorm_pos {a : List ℚ} (h : normSqQ a ≠ 0) : 0 < npNorm a := by
  rw [npNorm]
  apply Real.sqrt_pos.mpr
  have h1 := normSqQ_nonneg a
  have h2 : 0 < normSqQ a := lt_of_le_of_ne h1 (Ne.symm h)
  exact_mod_cast h2

lemma clampedNorm_pos (a : List ℚ) : 0 < clampedNorm a := by
  rw [clampedNorm]
  split
  · norm_num
  · next h => exact lt_of_le_of_ne (npNorm_nonneg a) (Ne.symm h)

lemma clampedNorm_of_ne {a : List ℚ} (h : normSqQ a ≠ 0) : clampedNorm a = npNorm a :=
  if_neg (npNorm_pos h).ne'

lemma deg2rad_fifteen : deg2rad 15 = Real.pi / 12 := by
  rw [deg2rad]; push_cast; ring

lemma sspThreshold_le_one : sspThreshold ≤ 1 := Real.cos_le_one _

lemma sspThreshold_pos : 0 < sspThreshold := by
  rw [sspThreshold, deg2rad_fifteen]
  apply Real.cos_pos_of_mem_Ioo
  constructor
  · nlinarith [Real.pi_pos]
  · nlinarith [Real.pi_pos]

/-- C5 counterexample: for the all-real bin measurement `[1, 1]` the imaginary
part has zero norm, yet the denominator of `processData`'s cosine-similarity
division is 0, not 1: the clamping claimed for every cosine-similarity
computation of the pipeline is absent from the per-bin SSP classification of
the demixer (in float arithmetic the division yields NaN there). -/
theorem procData_denominator_unclamped_cex :
    npNorm (imParts [((1 : ℚ), (0 : ℚ)), ((1 : ℚ), (0 : ℚ))]) = 0 ∧
      procDenom [((1 : ℚ), (0 : ℚ)), ((1 : ℚ), (0 : ℚ))] = 0 := by
  have h : normSqQ (imParts [((1 : ℚ), (0 : ℚ)), ((1 : ℚ), (0 : ℚ))]) = 0 := by
    simp [normSqQ, dotQ, imParts]
  have him : npNorm (imParts [((1 : ℚ), (0 : ℚ)), ((1 : ℚ), (0 : ℚ))]) = 0 := by
    rw [npNorm, h]
    norm_num
  exact ⟨him, by rw [procDenom, him, mul_zero]⟩

/-- C5 amended: the zero-norm clamping holds in `filterSSP` — each of the two
norms in its per-bin cosine-similarity denominator is replaced by 1 when zero,
so the denominator is strictly positive and the similarity value is finite —
but NOT in the per-bin SSP classification of `processData`, which divides by
the raw product of norms (see the counterexample, where that product is 0). -/
theorem filterSSP_denominators_clamped (b : Vec) :
    0 < clampedNorm (reParts b) ∧ 0 < clampedNorm (imParts b) ∧
      clampedNorm (reParts b) * clampedNorm (imParts b) ≠ 0 :=
  ⟨clampedNorm_pos _, clampedNorm_pos _,
    (mul_pos (clampedNorm_pos _) (clampedNorm_pos _)).ne'⟩

/-- A bin measurement whose real and imaginary parts are anti-parallel. -/
def bAnti : Vec := [((1 : ℚ), (-1 : ℚ)), ((1 : ℚ), (-1 : ℚ))]

lemma npNorm_two_of (a : List ℚ) (h : normSqQ a = 2) : npNorm a = Real.sqrt 2 := by
  rw [npNorm, h]
  norm_num

lemma normSqQ_re_bAnti : normSqQ (reParts bAnti) = 2 := by
  simp [normSqQ, dotQ, reParts, bAnti]
  norm_num

lemma normSqQ_im_bAnti : normSqQ (imParts bAnti) = 2 := by
  simp [normSqQ, dotQ, imParts, bAnti]
  norm_num

lemma dotQ_bAnti : dotQ (reParts bAnti) (imParts bAnti) = -2 := by
  simp [dotQ, reParts, imParts, bAnti]
  norm_num

/-- C6 counterexample: for the bin `b = [1 - i, 1 - i]` (real and imaginary
parts anti-parallel), `filterSSP`'s test keeps the bin (its similarity is
`|-1| = 1`) while `processData`'s classification rejects it (its similarity is
`-1`, below the threshold): the two tests do not return the same boolean. -/
theorem ssp_tests_differ_cex : filterSSPKeep bAnti ∧ ¬ sspClass bAnti := by
  have hmul : Real.sqrt 2 * Real.sqrt 2 = 2 :=
    Real.mul_self_sqrt (by norm_num : (0 : ℝ) ≤ 2)
  have hre := npNorm_two_of _ normSqQ_re_bAnti
  have him := npNorm_two_of _ normSqQ_im_bAnti
  have hproc : procCosSim bAnti = -1 := by
    rw [procCosSim, dotQ_bAnti, hre, him, hmul]
    push_cast
    norm_num
  constructor
  · rw [filterSSPKeep, filterCosSim, dotQ_bAnti,
      clampedNorm_of_ne (by rw [normSqQ_re_bAnti]; norm_num),
      clampedNorm_of_ne (by rw [normSqQ_im_bAnti]; norm_num), hre, him, hmul]
    push_cast
    norm_num
    exact sspThreshold_le_one
  · rw [sspClass, hproc]
    intro hcon
    nlinarith [sspThreshold_pos]

/-- C6 amended: `processData`'s per-bin SSP classification and `filterSSP`'s
per-bin retention test agree whenever the real and imaginary parts of the bin
both have nonzero norm and their dot product is nonnegative; they differ when
the dot product is negative (`filterSSP` takes the absolute value of the
similarity, `processData` does not — see the counterexample) and when a part
has zero norm (`filterSSP` clamps, `processData` divides by zero). -/
theorem ssp_tests_agree_of_nonneg (b : Vec)
    (hre : normSqQ (reParts b) ≠ 0) (him : normSqQ (imParts b) ≠ 0)
    (hdot : 0 ≤ dotQ (reParts b) (imParts b)) :
    (sspClass b ↔ filterSSPKeep b) := by
  have hq : 0 ≤ ((dotQ (reParts b) (imParts b) : ℚ) : ℝ) /
      (npNorm (reParts b) * npNorm (imParts b)) := by
    apply div_nonneg
    · exact_mod_cast hdot
    · exact mul_nonneg (npNorm_nonneg _) (npNorm_nonneg _)
  rw [sspClass, filterSSPKeep, filterCosSim, clampedNorm_of_ne hre,
    clampedNorm_of_ne him, procCosSim, abs_of_nonneg hq]

/-- A bin measurement with parallel, nonzero real and imaginary parts. -/
def bPar : Vec := [((1 : ℚ), (1 : ℚ)), ((1 : ℚ), (1 : ℚ))]

lemma normSqQ_re_bPar : normSqQ (reParts bPar) = 2 := by
  simp [normSqQ, dotQ, reParts, bPar]
  norm_num

lemma normSqQ_im_bPar : normSqQ (imParts bPar) = 2 := by
  simp [normSqQ, dotQ, imParts, bPar]
  norm_num

lemma dotQ_bPar : dotQ (reParts bPar) (imParts bPar) = 2 := by
  simp [dotQ, reParts, imParts, bPar]
  norm_num

theorem ssp_tests_agree_witness : sspClass bPar ↔ filterSSPKeep bPar :=
  ssp_tests_agree_of_nonneg bPar (by rw [normSqQ_re_bPar]; norm_num)
    (by rw [normSqQ_im_bPar]; norm_num) (by rw [dotQ_bPar]; norm_num)

/-- The complex zero. -/
def zeroC : Cx := ((0 : ℚ), (0 : ℚ))

/-- Complex multiplication. -/
def cmul (a b : Cx) : Cx := (a.1 * b.1 - a.2 * b.2, a.1 * b.2 + a.2 * b.1)

/-- Sum of a complex vector. -/
def csum (v : Vec) : Cx := v.foldr cadd zeroC

/-- `A @ x` for a matrix stored as a list of rows. -/
def matVec (A : List Vec) (x : List Cx) : Vec :=
  A.map fun row => csum (List.zipWith cmul row x)

/-- `np.abs` of one complex scalar. -/
noncomputable def npAbs (z : Cx) : ℝ := Real.sqrt ((magSq z : ℚ) : ℝ)

lemma magSq_nonneg (z : Cx) : 0 ≤ magSq z := by
  rw [magSq]
  nlinarith [mul_self_nonneg z.1, mul_self_nonneg z.2]

/-- `np.abs` comparisons on complex scalars order exactly as squared-magnitude
comparisons, which justifies deciding the source's float-magnitude comparisons
on the rational squared magnitudes. -/
lemma npAbs_le_npAbs_iff (z w : Cx) : npAbs z ≤ npAbs w ↔ magSq z ≤ magSq w := by
  rw [npAbs, npAbs, Real.sqrt_le_sqrt_iff (by exact_mod_cast magSq_nonneg w)]
  constructor
  · intro h; exact_mod_cast h
  · intro h; exact_mod_cast h

/-- `calculate_delta_s(A, x)` (lines 385-399): `ratio = (‖A@x‖ / ‖x‖)²`,
`delta_s = max(|ratio - 1|, |1 - ratio|)`. -/
noncomputable def deltaS (A : List Vec) (x : List Cx) : ℝ :=
  max |(npNormC (matVec A x) / npNormC x) ^ 2 - 1|
    |1 - (npNormC (matVec A x) / npNormC x) ^ 2|

/-- The signal-to-ambient quotient of lines 142-143:
`x_ratio = sum(|x|[1:]) / (|x|[0] + 0.01)`. -/
noncomputable def xQuot (xv : List Cx) : ℝ :=
  (((xv.drop 1).map npAbs).sum) / (npAbs (xv.headD zeroC) + 1 / 100)

/-- The in-place ambient-weight nudge of lines 146-147:
`w[0] += 0.1 * (x_ratio - w[0])`, then `w[0] = clip(w[0], 0.01, 100)`. -/
noncomputable def updateW0 (w : List ℝ) (q : ℝ) : List ℝ :=
  w.set 0 (npClip (w.getD 0 0 + (1 / 10) * (q - w.getD 0 0)) (1 / 100) 100)

/-- `np.abs(b).argmin()` — the first index of least (squared) magnitude. -/
def argminMagAux : List ℚ → ℚ → ℕ → ℕ → ℕ
  | [], _, best, _ => best
  | v :: r, bv, best, i =>
      if v < bv then argminMagAux r v i (i + 1) else argminMagAux r bv best (i + 1)

/-- `np.abs(b.value).argmin()` of line 126. -/
def argminMag (b : Vec) : ℕ :=
  match b.map magSq with
  | [] => 0
  | v :: rest => argminMagAux rest v 0 1

/-- The except-branch fallback of lines 124-126.  Line 125 assigns
`x.value = np.zeros(n_clusters)` — a float64 buffer — and line 126 stores the
complex scalar `b.value[np.abs(b.value).argmin()]` into its component 0.  A
float64 buffer cannot hold an imaginary part: numpy casts the scalar to
float, keeping only the REAL PART of the smallest-magnitude entry (the
imaginary part is discarded with a ComplexWarning).  The fallback value is
therefore the zero vector with component 0 = re(b[argmin |b|]). -/
def fallbackX (b : Vec) (n : ℕ) : List Cx :=
  (List.replicate n zeroC).set 0 ((b.getD (argminMag b) zeroC).1, (0 : ℚ))

/-- Outcome of one `problem.solve(warm_start=True)` attempt (line 120): the
solver either raises (caught by the bare `except`) or returns having stored a
solution in `x.value`, with `problem.status == 'optimal'` or not.  The
outcome may depend on the iteration index and on the weight values currently
held by the problem's weight `Parameter`. -/
inductive SolveOut where
  | fail : SolveOut
  | done : Bool → List Cx → SolveOut

/-- The loop state of `processData`:
`xval` is `x.value`; `wProb` holds the values of the cvxpy weight `Parameter`
that line 97 created and line 103 wired into the objective — these are the
weights every `problem.solve` call actually minimizes against; `wIsParam`
records whether the Python name `w` still references that Parameter (the
rebindings `w = cp.inv_pos(...)` of lines 134 and 138 replace the local
reference with a fresh Expression but leave the problem's Parameter in place);
`stopped` records an executed `break`. -/
structure PDState where
  xval : Option (List Cx)
  wProb : List ℝ
  wIsParam : Bool
  stopped : Bool

/-- The initial state: `x.value = None`, `weights = np.ones(n)/n` (line 96),
`w` bound to the Parameter, loop not broken. -/
noncomputable def pdInit (n : ℕ) : PDState :=
  { xval := none, wProb := List.replicate n ((n : ℝ))⁻¹, wIsParam := true,
    stopped := false }

/-- The reweighting block of lines 132-147, entered when the iteration did not
break: if the bin is SSP, `w = cp.inv_pos(cp.abs(x) + 0.01)` rebinds the local
name only; otherwise, if `delta < sqrt(2) - 1`, same rebinding; otherwise
`w.value[0]` is nudged — which mutates the problem's Parameter only while `w`
still references it (after a rebinding, `w.value` is a freshly computed
Expression value, and writing into it leaves the problem untouched). -/
noncomputable def pdReweight (A : List Vec) (b : Vec) (s : PDState) : PDState :=
  if sspClass b then { s with wIsParam := false }
  else if deltaS A (s.xval.getD []) < Real.sqrt 2 - 1 then { s with wIsParam := false }
  else if s.wIsParam then { s with wProb := updateW0 s.wProb (xQuot (s.xval.getD [])) }
  else s

/-- The `try/except` of lines 119-129: on an exception install the fallback
iff `x.value` is still `None` (lines 122-126); on a successful return record
the solution and break iff the status is optimal (line 121). -/
noncomputable def pdAttempt (attempts : ℕ → List ℝ → SolveOut) (b : Vec) (n i : ℕ)
    (s : PDState) : PDState :=
  match attempts i s.wProb with
  | SolveOut.fail =>
      match s.xval with
      | none => { s with xval := some (fallbackX b n) }
      | some _ => s
  | SolveOut.done opt xv =>
      if opt then { s with xval := some xv, stopped := true }
      else { s with xval := some xv }

/-- One iteration of the `for i in range(cs_iters)` loop (lines 118-147):
skip if already broken; run the try/except solve step; then, unless it broke,
run the reweighting block. -/
noncomputable def pdStep (attempts : ℕ → List ℝ → SolveOut) (A : List Vec) (b : Vec)
    (n : ℕ) (i : ℕ) (s : PDState) : PDState :=
  if s.stopped then s
  else if (pdAttempt attempts b n i s).stopped then pdAttempt attempts b n i s
  else pdReweight A b (pdAttempt attempts b n i s)

/-- The whole bounded loop of `processData`, `cs_iters` iterations. -/
noncomputable def processDataRun (attempts : ℕ → List ℝ → SolveOut) (A : List Vec)
    (b : Vec) (n iters : ℕ) : PDState :=
  (List.range iters).foldl (fun s i => pdStep attempts A b n i s) (pdInit n)

/-- Python truthiness of the `boom` configuration value: `None` and `0` are
falsy, any other index is truthy — `if(boom and ...)` on line 150 therefore
skips the clamp for boom index 0 as well as for an unconfigured boom. -/
def pyTruthy : Option ℕ → Bool
  | none => false
  | some k => !(k == 0)

/-- The boom-constraint check of lines 149-151:
`if(boom and np.abs(x.value[0]) >= np.abs(b.value[boom])): x.value[0] = b.value[boom]`.
The float-magnitude comparison is decided on squared magnitudes
(see `npAbs_le_npAbs_iff`). -/
def boomClamp (boomIdx : Option ℕ) (xv b : Vec) : Vec :=
  if pyTruthy boomIdx ∧ magSq (b.getD (boomIdx.getD 0) zeroC) ≤ magSq (xv.getD 0 zeroC)
  then xv.set 0 (b.getD (boomIdx.getD 0) zeroC)
  else xv

/-- `processData(A, b, n_clusters, data)` (lines 92-153) with the cvxpy solver
abstracted as `attempts`: run the bounded loop, then apply the boom check and
return `x.value` (`none` when the loop never ran and nothing set it). -/
noncomputable def processData (boomIdx : Option ℕ) (attempts : ℕ → List ℝ → SolveOut)
    (A : List Vec) (b : Vec) (n iters : ℕ) : Option (List Cx) :=
  match (processDataRun attempts A b n iters).xval with
  | none => none
  | some xv => some (boomClamp boomIdx xv b)

lemma pdReweight_xval (A : List Vec) (b : Vec) (s : PDState) :
    (pdReweight A b s).xval = s.xval ∧ (pdReweight A b s).stopped = s.stopped := by
  unfold pdReweight
  split
  · exact ⟨rfl, rfl⟩
  · split
    · exact ⟨rfl, rfl⟩
    · split
      · exact ⟨rfl, rfl⟩
      · exact ⟨rfl, rfl⟩

lemma pdReweight_wProb_ssp (A : List Vec) (b : Vec) (s : PDState) (hssp : sspClass b) :
    (pdReweight A b s).wProb = s.wProb := by
  unfold pdReweight
  rw [if_pos hssp]

lemma pdAttempt_wProb (attempts : ℕ → List ℝ → SolveOut) (b : Vec) (n i : ℕ)
    (s : PDState) : (pdAttempt attempts b n i s).wProb = s.wProb := by
  unfold pdAttempt
  cases h : attempts i s.wProb with
  | fail => cases hx : s.xval <;> rfl
  | done opt xv => cases opt <;> rfl

lemma pdAttempt_fail_proj (attempts : ℕ → List ℝ → SolveOut) (b : Vec) (n i : ℕ)
    (s : PDState) (hfail : attempts i s.wProb = SolveOut.fail) :
    (pdAttempt attempts b n i s).xval = some (s.xval.getD (fallbackX b n)) ∧
      (pdAttempt attempts b n i s).stopped = s.stopped := by
  unfold pdAttempt
  rw [hfail]
  cases hx : s.xval with
  | none => exact ⟨rfl, rfl⟩
  | some val => exact ⟨hx, rfl⟩

lemma pdStep_fail (attempts : ℕ → List ℝ → SolveOut) (A : List Vec) (b : Vec)
    (n i : ℕ) (s : PDState) (hfail : attempts i s.wProb = SolveOut.fail)
    (hstop : s.stopped = false) :
    (pdStep attempts A b n i s).xval = some (s.xval.getD (fallbackX b n)) ∧
      (pdStep attempts A b n i s).stopped = false := by
  obtain ⟨ha1, ha2⟩ := pdAttempt_fail_proj attempts b n i s hfail
  unfold pdStep
  rw [hstop, ha2, hstop]
  simp only [Bool.false_eq_true, if_false]
  exact ⟨by rw [(pdReweight_xval A b _).1, ha1],
    by rw [(pdReweight_xval A b _).2, ha2, hstop]⟩

lemma pdStep_wProb_ssp (attempts : ℕ → List ℝ → SolveOut) (A : List Vec) (b : Vec)
    (n i : ℕ) (s : PDState) (hssp : sspClass b) :
    (pdStep attempts A b n i s).wProb = s.wProb := by
  unfold pdStep
  split
  · rfl
  · split
    · rw [pdAttempt_wProb]
    · rw [pdReweight_wProb_ssp A b _ hssp, pdAttempt_wProb]

lemma processDataRun_succ (attempts : ℕ → List ℝ → SolveOut) (A : List Vec) (b : Vec)
    (n m : ℕ) :
    processDataRun attempts A b n (m + 1) =
      pdStep attempts A b n m (processDataRun attempts A b n m) := by
  unfold processDataRun
  rw [List.range_succ, List.foldl_append]
  rfl

lemma processDataRun_fail (attempts : ℕ → List ℝ → SolveOut) (A : List Vec) (b : Vec)
    (n : ℕ) (hfail : ∀ i w, attempts i w = SolveOut.fail) :
    ∀ k, 1 ≤ k → (processDataRun attempts A b n k).xval = some (fallbackX b n) ∧
      (processDataRun attempts A b n k).stopped = false := by
  intro k hk
  induction k with
  | zero => omega
  | succ m ih =>
    rw [processDataRun_succ]
    cases Nat.eq_zero_or_pos m with
    | inl h0 =>
      subst h0
      have h := pdStep_fail attempts A b n 0 (pdInit n) (hfail 0 _) rfl
      simpa using h
    | inr hpos =>
      obtain ⟨hx, hs⟩ := ih hpos
      have h := pdStep_fail attempts A b n m _ (hfail m _) hs
      rw [hx] at h
      simpa using h

/-- C4 amended: if every attempt of the convex solve inside the bounded
reweighting loop raises and hence no solution value ever exists, `processData`
(with the default unconfigured boom) returns the degenerate fallback: the zero
vector of length `n_clusters` with component 0 set to the REAL PART of the
bin-measurement entry of smallest magnitude (line 125's `np.zeros(n_clusters)`
is a float64 buffer, so the store of line 126 discards the imaginary part).
The function returns a value rather than propagating the solver failure, so a
per-bin failure never aborts the batch of bin solves. -/
theorem solver_all_fail_fallback (attempts : ℕ → List ℝ → SolveOut) (A : List Vec)
    (b : Vec) (n iters : ℕ) (hfail : ∀ i w, attempts i w = SolveOut.fail)
    (hit : 1 ≤ iters) :
    processData none attempts A b n iters = some (fallbackX b n) := by
  have h := processDataRun_fail attempts A b n hfail iters hit
  unfold processData
  rw [h.1]
  show some (boomClamp none (fallbackX b n) b) = some (fallbackX b n)
  rw [boomClamp, if_neg]
  rintro ⟨h1, -⟩
  simp [pyTruthy] at h1

theorem solver_all_fail_fallback_witness :
    processData none (fun _ _ => SolveOut.fail) [] [((1 : ℚ), (0 : ℚ))] 1 1 =
      some [((1 : ℚ), (0 : ℚ))] := by
  have h := solver_all_fail_fallback (fun _ _ => SolveOut.fail) []
    [((1 : ℚ), (0 : ℚ))] 1 1 (fun _ _ => rfl) (le_refl 1)
  rw [h]
  rfl

/-- C4 counterexample: for the bin measurement `b = [3, i]` the entry of
smallest magnitude is `b[1] = i`, but with every solve attempt raising,
`processData` returns the all-zero vector: the float64 zeros buffer of line
125 keeps only the real part (here 0) of the entry stored on line 126, so the
returned component 0 is NOT the bin-measurement entry of smallest magnitude,
refuting the claim as stated whenever that entry has a nonzero imaginary
part. -/
theorem fallback_drops_imaginary_cex :
    processData none (fun _ _ => SolveOut.fail) []
        [((3 : ℚ), (0 : ℚ)), ((0 : ℚ), (1 : ℚ))] 2 1 =
      some [((0 : ℚ), (0 : ℚ)), ((0 : ℚ), (0 : ℚ))] ∧
      magSq (((0 : ℚ), (1 : ℚ)) : Cx) < magSq (((3 : ℚ), (0 : ℚ)) : Cx) ∧
      (((0 : ℚ), (0 : ℚ)) : Cx) ≠ ((0 : ℚ), (1 : ℚ)) := by
  refine ⟨?_, by norm_num [magSq], by norm_num [Prod.ext_iff]⟩
  have h := processDataRun_fail (fun _ _ => SolveOut.fail) []
    [((3 : ℚ), (0 : ℚ)), ((0 : ℚ), (1 : ℚ))] 2 (fun _ _ => rfl) 1 (le_refl 1)
  have hmap : [((3 : ℚ), (0 : ℚ)), ((0 : ℚ), (1 : ℚ))].map magSq = [9, 1] := by
    norm_num [magSq]
  have harg : argminMag [((3 : ℚ), (0 : ℚ)), ((0 : ℚ), (1 : ℚ))] = 1 := by
    unfold argminMag
    rw [hmap]
    norm_num [argminMagAux]
  have hfb : fallbackX [((3 : ℚ), (0 : ℚ)), ((0 : ℚ), (1 : ℚ))] 2 =
      [((0 : ℚ), (0 : ℚ)), ((0 : ℚ), (0 : ℚ))] := by
    unfold fallbackX
    rw [harg]
    rfl
  unfold processData
  rw [h.1, hfb]
  rfl

lemma sspClass_bPar : sspClass bPar := by
  have hre := npNorm_two_of _ normSqQ_re_bPar
  have him := npNorm_two_of _ normSqQ_im_bPar
  have hmul : Real.sqrt 2 * Real.sqrt 2 = 2 :=
    Real.mul_self_sqrt (by norm_num : (0 : ℝ) ≤ 2)
  rw [sspClass, procCosSim, dotQ_bPar, hre, him, hmul]
  push_cast
  norm_num
  exact sspThreshold_le_one

/-- C7 (code bug): when the bin is classified as SSP, the reweighting branch
`w = cp.inv_pos(cp.abs(x) + 0.01)` (line 134) only rebinds the local Python
name `w`; the cvxpy `Problem` built on line 106 still holds the original
weight `Parameter` of line 97, whose values are never written on the SSP path.
Hence the weight vector the solver minimizes against — `wProb`, the values the
problem's Parameter holds when `problem.solve` runs — equals the initial
uniform vector `np.ones(n)/n` at every iteration, for every solver behaviour:
the inverse-magnitude reweighting never reaches the problem actually solved on
the next iteration, contradicting the claim (and the source's own comment
"Make W[0] Smaller"). -/
theorem ssp_reweight_never_reaches_solver (attempts : ℕ → List ℝ → SolveOut)
    (A : List Vec) (b : Vec) (n : ℕ) (hssp : sspClass b) :
    ∀ iters, (processDataRun attempts A b n iters).wProb =
      List.replicate n ((n : ℝ))⁻¹ := by
  intro iters
  induction iters with
  | zero => rfl
  | succ m ih =>
    rw [processDataRun_succ, pdStep_wProb_ssp attempts A b n m _ hssp, ih]

theorem ssp_reweight_witness :
    sspClass bPar ∧
      (processDataRun (fun _ _ => SolveOut.fail) [] bPar 2 3).wProb =
        List.replicate 2 (((2 : ℕ) : ℝ))⁻¹ :=
  ⟨sspClass_bPar,
    ssp_reweight_never_reaches_solver (fun _ _ => SolveOut.fail) [] bPar 2
      sspClass_bPar 3⟩

/-- C8 counterexample: with the boom configured at sensor index 0, a recovered
ambient amplitude (5) strictly exceeding the boom measurement magnitude (2) is
returned UNCLAMPED: `if(boom and ...)` treats the configured index 0 as falsy,
so the clamp is skipped and `processData` returns `x` unchanged, contradicting
the claim for that configured boom index. -/
theorem boom_zero_not_clamped_cex :
    magSq (((2 : ℚ), (0 : ℚ)) : Cx) < magSq (((5 : ℚ), (0 : ℚ)) : Cx) ∧
      processData (some 0) (fun _ _ => SolveOut.done true [((5 : ℚ), (0 : ℚ))]) []
        [((2 : ℚ), (0 : ℚ))] 1 1 = some [((5 : ℚ), (0 : ℚ))] := by
  constructor
  · norm_num [magSq]
  · rfl

/-- C8 amended: for every configured NONZERO boom sensor index `k` and every
bin, if the recovered ambient amplitude exceeds the boom measurement magnitude
then the final step of `processData` clamps component 0 of `x` to `b[k]`; and
for EVERY `x` and `b`, when the boom is unconfigured (`None`) — or configured
as index 0, which the Python truthiness test of line 150 treats identically to
`None` — `x` is returned unclamped. -/
theorem boom_clamp_nonzero :
    (∀ (k : ℕ) (xv b : Vec), k ≠ 0 →
        magSq (b.getD k zeroC) < magSq (xv.getD 0 zeroC) →
        boomClamp (some k) xv b = xv.set 0 (b.getD k zeroC)) ∧
      (∀ xv b : Vec, boomClamp none xv b = xv) ∧
      (∀ xv b : Vec, boomClamp (some 0) xv b = xv) := by
  refine ⟨?_, ?_, ?_⟩
  · intro k xv b hk hexceed
    have hcond : pyTruthy (some k) = true ∧
        magSq (b.getD ((some k).getD 0) zeroC) ≤ magSq (xv.getD 0 zeroC) := by
      refine ⟨by simp [pyTruthy, hk], ?_⟩
      simpa using le_of_lt hexceed
    rw [boomClamp, if_pos hcond]
    rfl
  · intro xv b
    rw [boomClamp, if_neg]
    rintro ⟨h1, -⟩
    simp [pyTruthy] at h1
  · intro xv b
    rw [boomClamp, if_neg]
    rintro ⟨h1, -⟩
    simp [pyTruthy] at h1

theorem boom_clamp_nonzero_witness :
    boomClamp (some 1) [((5 : ℚ), (0 : ℚ))] [((9 : ℚ), (0 : ℚ)), ((2 : ℚ), (0 : ℚ))] =
        [((2 : ℚ), (0 : ℚ))] ∧
      boomClamp none [((5 : ℚ), (0 : ℚ))] [((9 : ℚ), (0 : ℚ)), ((2 : ℚ), (0 : ℚ))] =
        [((5 : ℚ), (0 : ℚ))] ∧
      boomClamp (some 0) [((5 : ℚ), (0 : ℚ))] [((9 : ℚ), (0 : ℚ)), ((2 : ℚ), (0 : ℚ))] =
        [((5 : ℚ), (0 : ℚ))] := by
  refine ⟨?_, boom_clamp_nonzero.2.1 _ _, boom_clamp_nonzero.2.2 _ _⟩
  rw [boom_clamp_nonzero.1 1 [((5 : ℚ), (0 : ℚ))]
    [((9 : ℚ), (0 : ℚ)), ((2 : ℚ), (0 : ℚ))] (by decide) (by norm_num [magSq, zeroC])]
  rfl

/-- A 3-d numpy array value (sensors × axes × samples). -/
abbrev Ten : Type := List (List (List ℚ))

/-- A 2-d numpy array value (axes × samples). -/
abbrev Mat2 : Type := List (List ℚ)

/-- The heap of numpy buffers `clean` touches: `t3` holds the 3-d buffers (the
triaxial input `B`, its trend, its detrended difference), `t2` the 2-d buffers
(the triaxial result; in the `triaxial=False` branch, the input `B`, its trend
and its difference), `t1` the 1-d buffers (the single-axis result).  An array
reference is an index into the respective list; a numpy operation that
allocates appends a buffer, an in-place operation overwrites one. -/
structure CleanHeap where
  t3 : List Ten
  t2 : List Mat2
  t1 : List (List ℚ)

def read3 (σ : CleanHeap) (r : ℕ) : Ten := σ.t3.getD r []

def alloc3 (σ : CleanHeap) (v : Ten) : CleanHeap × ℕ :=
  ({ σ with t3 := σ.t3 ++ [v] }, σ.t3.length)

def read2 (σ : CleanHeap) (r : ℕ) : Mat2 := σ.t2.getD r []

def alloc2 (σ : CleanHeap) (v : Mat2) : CleanHeap × ℕ :=
  ({ σ with t2 := σ.t2 ++ [v] }, σ.t2.length)

def write2 (σ : CleanHeap) (r : ℕ) (v : Mat2) : CleanHeap :=
  { σ with t2 := σ.t2.set r v }

def read1 (σ : CleanHeap) (r : ℕ) : List ℚ := σ.t1.getD r []

def alloc1 (σ : CleanHeap) (v : List ℚ) : CleanHeap × ℕ :=
  ({ σ with t1 := σ.t1 ++ [v] }, σ.t1.length)

def write1 (σ : CleanHeap) (r : ℕ) (v : List ℚ) : CleanHeap :=
  { σ with t1 := σ.t1.set r v }

/-- `B - trend`, elementwise over the 3-d tensor value. -/
def tenSub (a b : Ten) : Ten :=
  List.zipWith (fun p q => List.zipWith (fun u w => List.zipWith (fun x y => x - y) u w) p q) a b

/-- `result += mean`, elementwise over the 2-d result value. -/
def rowsAdd (m other : Mat2) : Mat2 :=
  List.zipWith (fun u w => List.zipWith (fun x y => x + y) u w) m other

/-- The detrend statements of lines 71-73 as heap operations:
`trend = uniform_filter1d(B, size=uf, axis=-1)` reads the `B` buffer and
allocates the trend; `B = B - trend` allocates the difference and rebinds the
local name `B` — the original buffer is NOT written.  When detrending is off
nothing happens. -/
def cleanDetrendPhase (detrendFlag : Bool) (uf1d : Ten → Ten) (σ0 : CleanHeap)
    (rB : ℕ) : CleanHeap :=
  if detrendFlag then
    (alloc3 (alloc3 σ0 (uf1d (read3 σ0 rB))).1
      (tenSub (read3 σ0 rB) (uf1d (read3 σ0 rB)))).1
  else σ0

/-- The value the local name `B` refers to after the detrend phase. -/
def cleanBop (detrendFlag : Bool) (uf1d : Ten → Ten) (σ0 : CleanHeap) (rB : ℕ) : Ten :=
  if detrendFlag then tenSub (read3 σ0 rB) (uf1d (read3 σ0 rB)) else read3 σ0 rB

/-- Lines 76-80 as heap operations: `result = np.zeros((3, B.shape[-1]))`
allocates the result buffer, and each `result[axis] = demixNSGT(...)[0]`
writes one row of it in place.  `axisOut ax Bv` models
`demixNSGT(B[:,axis,:])[0]`: slicing creates a view and the NSGT transform and
all downstream operations read it and allocate fresh arrays, so the axis
result is a function of the buffer value only. -/
def cleanResultPhase (axisOut : ℕ → Ten → List ℚ) (Bop : Ten) (σ : CleanHeap) :
    CleanHeap × ℕ :=
  ((List.range 3).foldl
    (fun σc ax => write2 σc σ.t2.length ((read2 σc σ.t2.length).set ax (axisOut ax Bop)))
    (alloc2 σ (List.replicate 3
      (List.replicate ((Bop.headD []).headD []).length (0 : ℚ)))).1,
   σ.t2.length)

/-- Line 87, `result += np.mean(trend, axis=0)`: an in-place write of the
result buffer, only when detrending is on. -/
def cleanTrendAdd (detrendFlag : Bool) (meanAx0 : Ten → Mat2) (trendV : Ten)
    (σ : CleanHeap) (rR : ℕ) : CleanHeap :=
  if detrendFlag then write2 σ rR (rowsAdd (read2 σ rR) (meanAx0 trendV)) else σ

/-- `clean(B, triaxial=True)` (lines 63-89) at the heap level, with the
external `uniform_filter1d` (`uf1d`), `np.mean(..., axis=0)` (`meanAx0`) and
the per-axis demix pipeline (`axisOut`) as read-only parameters: detrend
phase, result allocation and per-axis writes, trend re-addition.  Returns the
final heap and the result buffer's reference. -/
def cleanStore (detrendFlag : Bool) (uf1d : Ten → Ten) (meanAx0 : Ten → Mat2)
    (axisOut : ℕ → Ten → List ℚ) (σ0 : CleanHeap) (rB : ℕ) : CleanHeap × ℕ :=
  (cleanTrendAdd detrendFlag meanAx0 (uf1d (read3 σ0 rB))
    (cleanResultPhase axisOut (cleanBop detrendFlag uf1d σ0 rB)
      (cleanDetrendPhase detrendFlag uf1d σ0 rB)).1
    (cleanResultPhase axisOut (cleanBop detrendFlag uf1d σ0 rB)
      (cleanDetrendPhase detrendFlag uf1d σ0 rB)).2,
   (cleanResultPhase axisOut (cleanBop detrendFlag uf1d σ0 rB)
      (cleanDetrendPhase detrendFlag uf1d σ0 rB)).2)

lemma foldl_write2_t3 (rR : ℕ) (g : CleanHeap → ℕ → Mat2) (l : List ℕ) (σ : CleanHeap) :
    (l.foldl (fun σc ax => write2 σc rR (g σc ax)) σ).t3 = σ.t3 := by
  induction l generalizing σ with
  | nil => rfl
  | cons x rest ih => rw [List.foldl_cons, ih]; rfl

lemma cleanResultPhase_t3 (axisOut : ℕ → Ten → List ℚ) (Bop : Ten) (σ : CleanHeap) :
    (cleanResultPhase axisOut Bop σ).1.t3 = σ.t3 := by
  unfold cleanResultPhase
  rw [foldl_write2_t3]
  rfl

lemma cleanTrendAdd_t3 (detrendFlag : Bool) (meanAx0 : Ten → Mat2) (trendV : Ten)
    (σ : CleanHeap) (rR : ℕ) :
    (cleanTrendAdd detrendFlag meanAx0 trendV σ rR).t3 = σ.t3 := by
  unfold cleanTrendAdd
  split <;> rfl

lemma cleanDetrendPhase_read3 (detrendFlag : Bool) (uf1d : Ten → Ten)
    (σ0 : CleanHeap) (rB : ℕ) (h : rB < σ0.t3.length) :
    read3 (cleanDetrendPhase detrendFlag uf1d σ0 rB) rB = read3 σ0 rB := by
  unfold cleanDetrendPhase
  split
  · show (((σ0.t3 ++ [uf1d (read3 σ0 rB)]) ++ [tenSub (read3 σ0 rB) (uf1d (read3 σ0 rB))]).getD rB []) = read3 σ0 rB
    rw [List.getD_append _ _ _ _ (by simp; omega), List.getD_append _ _ _ _ h]
    rfl
  · rfl

/-- `B - trend` elementwise over a 2-d value (the `triaxial=False` branch). -/
def matSub (a b : Mat2) : Mat2 :=
  List.zipWith (fun u w => List.zipWith (fun x y => x - y) u w) a b

/-- `result += mean`, elementwise over the 1-d result value. -/
def rowAdd (u w : List ℚ) : List ℚ := List.zipWith (fun x y => x + y) u w

/-- The detrend statements of lines 71-73 in the `triaxial=False` branch: the
input is 2-d, so the trend and the difference are 2-d buffers;
`trend = uniform_filter1d(B, ...)` reads the `B` buffer and allocates,
`B = B - trend` allocates the difference and rebinds the local name — the
original buffer is NOT written. -/
def cleanDetrendPhase2 (detrendFlag : Bool) (uf1d2 : Mat2 → Mat2) (σ0 : CleanHeap)
    (rB : ℕ) : CleanHeap :=
  if detrendFlag then
    (alloc2 (alloc2 σ0 (uf1d2 (read2 σ0 rB))).1
      (matSub (read2 σ0 rB) (uf1d2 (read2 σ0 rB)))).1
  else σ0

/-- The value the local name `B` refers to after the 2-d detrend phase. -/
def cleanBop2 (detrendFlag : Bool) (uf1d2 : Mat2 → Mat2) (σ0 : CleanHeap)
    (rB : ℕ) : Mat2 :=
  if detrendFlag then matSub (read2 σ0 rB) (uf1d2 (read2 σ0 rB)) else read2 σ0 rB

/-- Line 87 in the `triaxial=False` branch: `result += np.mean(trend, axis=0)`
writes the 1-d result buffer in place, only when detrending is on. -/
def cleanTrendAdd1 (detrendFlag : Bool) (mean2 : Mat2 → List ℚ) (trendV : Mat2)
    (σ : CleanHeap) (rR : ℕ) : CleanHeap :=
  if detrendFlag then write1 σ rR (rowAdd (read1 σ rR) (mean2 trendV)) else σ

/-- `clean(B, triaxial=False)` (lines 63-89, single-axis branch of lines
82-84) at the heap level: detrend phase, then `result = demixNSGT(B)[0]`,
which allocates the demixed output and binds `result` to its fresh row 0
(`demixRow` models the read-only cluster-and-demix pipeline as a function of
the buffer value — the NSGT transform and all downstream operations read `B`
and allocate fresh arrays), then the trend re-addition writes that fresh
buffer in place.  Returns the final heap and the result buffer's reference. -/
def cleanStoreSingle (detrendFlag : Bool) (uf1d2 : Mat2 → Mat2)
    (mean2 : Mat2 → List ℚ) (demixRow : Mat2 → List ℚ) (σ0 : CleanHeap)
    (rB : ℕ) : CleanHeap × ℕ :=
  (cleanTrendAdd1 detrendFlag mean2 (uf1d2 (read2 σ0 rB))
    (alloc1 (cleanDetrendPhase2 detrendFlag uf1d2 σ0 rB)
      (demixRow (cleanBop2 detrendFlag uf1d2 σ0 rB))).1
    (alloc1 (cleanDetrendPhase2 detrendFlag uf1d2 σ0 rB)
      (demixRow (cleanBop2 detrendFlag uf1d2 σ0 rB))).2,
   (alloc1 (cleanDetrendPhase2 detrendFlag uf1d2 σ0 rB)
      (demixRow (cleanBop2 detrendFlag uf1d2 σ0 rB))).2)

lemma cleanTrendAdd1_t2 (detrendFlag : Bool) (mean2 : Mat2 → List ℚ)
    (trendV : Mat2) (σ : CleanHeap) (rR : ℕ) :
    (cleanTrendAdd1 detrendFlag mean2 trendV σ rR).t2 = σ.t2 := by
  unfold cleanTrendAdd1
  split <;> rfl

lemma cleanDetrendPhase2_read2 (detrendFlag : Bool) (uf1d2 : Mat2 → Mat2)
    (σ0 : CleanHeap) (rB : ℕ) (h : rB < σ0.t2.length) :
    read2 (cleanDetrendPhase2 detrendFlag uf1d2 σ0 rB) rB = read2 σ0 rB := by
  unfold cleanDetrendPhase2
  split
  · show (((σ0.t2 ++ [uf1d2 (read2 σ0 rB)]) ++
      [matSub (read2 σ0 rB) (uf1d2 (read2 σ0 rB))]).getD rB []) = read2 σ0 rB
    rw [List.getD_append _ _ _ _ (by simp; omega), List.getD_append _ _ _ _ h]
    rfl
  · rfl

/-- C10: `clean` never mutates its input array `B` — for both values of
`triaxial`, with detrending enabled or disabled, and for every valid input
buffer reference, the buffer holds the same value after the call as before.
In both branches the detrend step subtracts the moving-average trend into a
freshly allocated array and rebinds the local name rather than modifying `B`
in place, and the only in-place writes of `clean` target the freshly
allocated result buffer (the preallocated rows in the triaxial branch, the
fresh demixed row in the single-axis branch). -/
theorem clean_never_mutates_input (detrendFlag detrendFlagS : Bool)
    (uf1d : Ten → Ten) (meanAx0 : Ten → Mat2) (axisOut : ℕ → Ten → List ℚ)
    (uf1d2 : Mat2 → Mat2) (mean2 : Mat2 → List ℚ) (demixRow : Mat2 → List ℚ)
    (σ0 σS : CleanHeap) (rB rBS : ℕ)
    (hvalid : rB < σ0.t3.length) (hvalidS : rBS < σS.t2.length) :
    read3 (cleanStore detrendFlag uf1d meanAx0 axisOut σ0 rB).1 rB = read3 σ0 rB ∧
      read2 (cleanStoreSingle detrendFlagS uf1d2 mean2 demixRow σS rBS).1 rBS =
        read2 σS rBS := by
  constructor
  · unfold cleanStore
    show read3 _ rB = read3 σ0 rB
    rw [read3, cleanTrendAdd_t3, cleanResultPhase_t3]
    rw [← read3]
    exact cleanDetrendPhase_read3 detrendFlag uf1d σ0 rB hvalid
  · unfold cleanStoreSingle
    show read2 _ rBS = read2 σS rBS
    rw [read2, cleanTrendAdd1_t2]
    show (cleanDetrendPhase2 detrendFlagS uf1d2 σS rBS).t2.getD rBS [] = _
    rw [← read2]
    exact cleanDetrendPhase2_read2 detrendFlagS uf1d2 σS rBS hvalidS

theorem clean_never_mutates_input_witness :
    read3 (cleanStore true (fun t => t) (fun _ => []) (fun _ _ => [])
        (CleanHeap.mk [[[[(1 : ℚ)]]]] [] []) 0).1 0 =
      read3 (CleanHeap.mk [[[[(1 : ℚ)]]]] [] []) 0 ∧
      read2 (cleanStoreSingle true (fun t => t) (fun _ => []) (fun _ => [])
          (CleanHeap.mk [] [[[(1 : ℚ)]]] []) 0).1 0 =
        read2 (CleanHeap.mk [] [[[(1 : ℚ)]]] []) 0 :=
  clean_never_mutates_input true true (fun t => t) (fun _ => []) (fun _ _ => [])
    (fun t => t) (fun _ => []) (fun _ => [])
    (CleanHeap.mk [[[[(1 : ℚ)]]]] [] []) (CleanHeap.mk [] [[[(1 : ℚ)]]] []) 0 0
    (by decide) (by decide)

end UBSS
